import Mathlib

/- Shallow embedding of App/ShapeBase.py, the component-tree node wrapper of
   the rocket workbench.  A host document object and its Proxy wrapper are in
   one-to-one correspondence (the constructor sets obj.Proxy = self and keeps
   self._obj = obj), so both are modelled as a single node record, addressed
   by its position in a global arena list. -/

namespace ShapeBase

/-- A component node: the merged document object plus its Proxy wrapper.  The
    fields mirror the attributes touched by ShapeBase.py: Type tag and
    version, the weak parent back-reference, the optional Group children
    sequence (none models a document object without the Group attribute), the
    Placement base coordinates px/py/pz with the Euler rotation triple, and
    the scratch dict. -/
structure Node where
  ty : String
  version : String
  parent : Option Nat
  group : Option (List Nat)
  px : Int
  py : Int
  pz : Int
  rot : Int × Int × Int
  scratch : List (String × Int)
deriving DecidableEq, Repr

/-- The arena of document objects: a node id is a position in the list. -/
abbrev State := List Node

/-- Placeholder returned for an id outside the arena; never reached in the
    scenarios below, it only keeps the embedding total. -/
def defaultNode : Node := ⟨"", "", none, none, 0, 0, 0, (0, 0, 0), []⟩

/-- Read the node stored at id i. -/
def getN (s : State) (i : Nat) : Node := s.getD i defaultNode

/-- Methods eligibleChild, getAxialLength and getForeRadius are overridden by
    the concrete component classes; the dynamic dispatch is embedded as
    functions keyed on the Type tag (the ShapeBase defaults return false
    and 0.0). -/
structure Env where
  elig : String → String → Bool
  axialLength : String → Int
  foreRadius : String → Int

/- ===== Scratch store (lines 54-61) ===== -/

/-- The Python dict self._scratch, modelled as an association list with the
    most recent binding first. -/
def scratchLookup : List (String × Int) → String → Option Int
  | [], _ => none
  | (k, v) :: rest, name => if k = name then some v else scratchLookup rest name

/-- Method setScratch: self._scratch[name] = value. -/
def setScratch (nd : Node) (name : String) (v : Int) : Node :=
  { nd with scratch := (name, v) :: nd.scratch }

/-- Method getScratch: return self._scratch[name]; none models the KeyError
    raised when the name is absent. -/
def getScratch (nd : Node) (name : String) : Option Int :=
  scratchLookup nd.scratch name

/-- State-threaded form of getScratch: the subscript lookup reads the dict
    and leaves the node untouched even when it fails. -/
def getScratchS (nd : Node) (name : String) : Option Int × Node :=
  (scratchLookup nd.scratch name, nd)

/-- Method isScratch: name in self._scratch. -/
def isScratch (nd : Node) (name : String) : Bool :=
  (scratchLookup nd.scratch name).isSome

/- ===== Persistence hooks (lines 46-52) ===== -/

/-- Persistence hook returning the tuple (self.Type, self.version). -/
def getstate (nd : Node) : String × String := (nd.ty, nd.version)

/-- Restore hook: if the state tuple is truthy, restore Type and version
    from it; a 2-tuple of strings is always truthy, none models a falsy
    state. -/
def setstate (nd : Node) (st : Option (String × String)) : Node :=
  match st with
  | some (t, v) => { nd with ty := t, version := v }
  | none => nd

/-- Modelled from the spec: a node freshly re-created on reload carries none
    of the in-memory-only state (no parent, no children sequence, empty
    scratch); only the restore hook then runs on it.  The reload machinery
    itself is owned by the host application and is not part of the source
    file. -/
def freshNode : Node := defaultNode

/-- Reload round trip: the restore hook applied to a fresh node with the
    tuple written by the persistence hook. -/
def reloadNode (nd : Node) : Node := setstate freshNode (some (getstate nd))

/- ===== Axis navigation: getPrevious (75-93) and getNext (95-114) ===== -/

/- The scan for obj in self._obj.Group returns Group[index-1] at the first
   index with index > 0 and Group[index].Proxy == obj; an occurrence at
   index 0 does not return and the loop keeps scanning.  Over consecutive
   pairs of the list this is: the first pair whose second component is the
   reference yields the first component. -/
def scanPrev : List Nat → Nat → Option Nat
  | x :: y :: rest, r => if y = r then some x else scanPrev (y :: rest) r
  | _, _ => none

/- The scan in getNext returns Group[index+1] at the first index with
   index < len - 1 and Group[index].Proxy == obj; an occurrence at the very
   last index does not return.  Over consecutive pairs: the first pair whose
   first component is the reference yields the second component. -/
def scanNext : List Nat → Nat → Option Nat
  | x :: y :: rest, r => if x = r then some y else scanNext (y :: rest) r
  | _, _ => none

/-- Method getPrevious, state-threaded.  The fuel only bounds the upward
    recursion through parent pointers (which the source does not bound);
    every theorem below supplies enough of it.  The second component is the
    state after the call. -/
def getPreviousS : Nat → State → Nat → Option Nat → Option Nat × State
  | 0, s, _, _ => (none, s)
  | f + 1, s, n, none =>
    match (getN s n).parent with
    | some p => getPreviousS f s p (some n)
    | none => (none, s)
  | f + 1, s, n, some r =>
    match (getN s n).group with
    | some g =>
      match scanPrev g r with
      | some res => (some res, s)
      | none => (some n, s)
    | none =>
      match (getN s n).parent with
      | some p => getPreviousS f s p (some r)
      | none => (none, s)

/-- Method getNext, state-threaded (the print statement has no effect on the
    tree).  Same shape as getPreviousS with the mirrored scan. -/
def getNextS : Nat → State → Nat → Option Nat → Option Nat × State
  | 0, s, _, _ => (none, s)
  | f + 1, s, n, none =>
    match (getN s n).parent with
    | some p => getNextS f s p (some n)
    | none => (none, s)
  | f + 1, s, n, some r =>
    match (getN s n).group with
    | some g =>
      match scanNext g r with
      | some res => (some res, s)
      | none => (some n, s)
    | none =>
      match (getN s n).parent with
      | some p => getNextS f s p (some r)
      | none => (none, s)

/- ===== Theorems for C8 and C9 ===== -/

/-- C8: getScratch fails (returns none, modelling the KeyError) exactly when
    isScratch is false; after setScratch the stored value is returned, also
    across a later write to a different name, so the most recent binding for
    the name wins; and a lookup, failing or not, leaves the node unchanged. -/
theorem c8_scratch_contract (nd : Node) (name : String) :
    ((getScratch nd name = none) ↔ isScratch nd name = false)
    ∧ (∀ v : Int, getScratch (setScratch nd name v) name = some v)
    ∧ (∀ v w : Int, ∀ m : String, m ≠ name →
        getScratch (setScratch (setScratch nd name v) m w) name = some v)
    ∧ getScratchS nd name = (getScratch nd name, nd) := by
  refine ⟨?_, ?_, ?_, rfl⟩
  · cases h : scratchLookup nd.scratch name <;>
      simp [getScratch, isScratch, h]
  · intro v
    simp [getScratch, setScratch, scratchLookup]
  · intro v w m hm
    simp [getScratch, setScratch, scratchLookup, hm]

/-- Witness for C8 at a concrete node and concrete names. -/
theorem c8_scratch_contract_w :
    getScratch (setScratch (setScratch defaultNode "k" 1) "j" 2) "k" = some 1 :=
  (c8_scratch_contract defaultNode "k").2.2.1 1 2 "j" (by decide)

/-- C9: the persisted tuple is exactly the type tag and the schema version,
    and a reload round trip restores both onto a node whose parent, children
    sequence and scratch store are absent. -/
theorem c9_persistence_roundtrip (nd : Node) :
    getstate nd = (nd.ty, nd.version)
    ∧ (reloadNode nd).ty = nd.ty ∧ (reloadNode nd).version = nd.version
    ∧ (reloadNode nd).parent = none ∧ (reloadNode nd).group = none
    ∧ (reloadNode nd).scratch = [] :=
  ⟨rfl, rfl, rfl, rfl, rfl, rfl⟩

/- ===== Scan lemmas for the navigation loops ===== -/

theorem scanPrev_of_not_mem : ∀ (g : List Nat) (r : Nat), r ∉ g → scanPrev g r = none := by
  intro g
  induction g with
  | nil => intro r _; rfl
  | cons x xs ih =>
    intro r h
    cases xs with
    | nil => rfl
    | cons y ys =>
      have hy : y ≠ r := fun e => h (by simp [e])
      have hrest : r ∉ y :: ys := fun hm => h (List.mem_cons_of_mem _ hm)
      simp [scanPrev, hy, ih r hrest]

theorem scanNext_of_not_mem : ∀ (g : List Nat) (r : Nat), r ∉ g → scanNext g r = none := by
  intro g
  induction g with
  | nil => intro r _; rfl
  | cons x xs ih =>
    intro r h
    cases xs with
    | nil => rfl
    | cons y ys =>
      have hx : x ≠ r := fun e => h (by simp [e])
      have hrest : r ∉ y :: ys := fun hm => h (List.mem_cons_of_mem _ hm)
      simp [scanNext, hx, ih r hrest]

theorem scanNext_adj : ∀ (l₁ l₂ : List Nat) (A B : Nat), A ∉ l₁ →
    scanNext (l₁ ++ A :: B :: l₂) A = some B := by
  intro l₁
  induction l₁ with
  | nil => intro l₂ A B _; simp [scanNext]
  | cons x xs ih =>
    intro l₂ A B h
    have hx : x ≠ A := fun e => h (by simp [e])
    have hxs : A ∉ xs := fun hm => h (List.mem_cons_of_mem _ hm)
    cases xs with
    | nil => simp [scanNext, hx]
    | cons y ys => simpa [scanNext, hx] using ih l₂ A B hxs

theorem scanPrev_adj : ∀ (l₁ l₂ : List Nat) (A B : Nat), B ∉ l₁ → A ≠ B →
    scanPrev (l₁ ++ A :: B :: l₂) B = some A := by
  intro l₁
  induction l₁ with
  | nil => intro l₂ A B _ _; simp [scanPrev]
  | cons x xs ih =>
    intro l₂ A B h hAB
    have hxs : B ∉ xs := fun hm => h (List.mem_cons_of_mem _ hm)
    cases xs with
    | nil => simp [scanPrev, hAB]
    | cons y ys =>
      have hy : y ≠ B := fun e => h (by simp [e])
      simpa [scanPrev, hy] using ih l₂ A B hxs hAB

/- ===== Theorems for C6, C5, C10 ===== -/

/-- C6: for adjacent siblings A immediately before B in the children
    sequence of p (neither occurring among the earlier elements), getNext on
    p with reference A returns B and getPrevious on p with reference B
    returns A. -/
theorem c6_adjacent_siblings (f : Nat) (s : State) (p : Nat) (l₁ l₂ : List Nat)
    (A B : Nat)
    (hg : (getN s p).group = some (l₁ ++ A :: B :: l₂))
    (hA : A ∉ l₁) (hB : B ∉ l₁) (hAB : A ≠ B) :
    (getNextS (f + 1) s p (some A)).1 = some B
    ∧ (getPreviousS (f + 1) s p (some B)).1 = some A := by
  constructor
  · simp [getNextS, hg, scanNext_adj l₁ l₂ A B hA]
  · simp [getPreviousS, hg, scanPrev_adj l₁ l₂ A B hB hAB]

/-- Navigation arena used below: node 0 has children 9 and 7, node 1 has an
    empty Group, node 2 has a Group not containing the reference 9, node 3
    has no Group attribute at all. -/
def navState : State :=
  [⟨"P", "3.0", none, some [9, 7], 0, 0, 0, (0, 0, 0), []⟩,
   ⟨"S", "3.0", some 0, some [], 0, 0, 0, (0, 0, 0), []⟩,
   ⟨"T", "3.0", some 0, some [7], 0, 0, 0, (0, 0, 0), []⟩,
   ⟨"L", "3.0", some 0, none, 0, 0, 0, (0, 0, 0), []⟩]

/-- Witness for C6 on the concrete arena: in node 0's sequence, 9 precedes
    7 with first occurrences as required. -/
theorem c6_adjacent_siblings_w :
    (getNextS 1 navState 0 (some 9)).1 = some 7
    ∧ (getPreviousS 1 navState 0 (some 7)).1 = some 9 :=
  c6_adjacent_siblings 0 navState 0 [] [] 9 7 (by decide) (by decide) (by decide)
    (by decide)

/-- C5 counterexample: node 1 has an empty children sequence ("no children")
    and node 2 a non-empty one not containing the reference 9; the claim says
    both calls delegate to the parent (node 0, whose answer for reference 9
    is itself, some 0), but the code returns each node's own object
    instead. -/
theorem c5_counterexample :
    (getPreviousS 3 navState 1 (some 9)).1 = some 1
    ∧ (getPreviousS 3 navState 2 (some 9)).1 = some 2
    ∧ (getPreviousS 3 navState 0 (some 9)).1 = some 0
    ∧ (1 : Nat) ≠ 0 ∧ (2 : Nat) ≠ 0 := by decide

/-- C5 amended: the outward delegation happens exactly when the document
    object has no Group attribute: then getPrevious/getNext with reference r
    forward to the parent with the same reference, or return none at the
    root.  When a Group attribute is present but the reference is not in the
    sequence (empty or not), both calls return the node itself. -/
theorem c5_delegation (f : Nat) (s : State) (n : Nat) (r : Nat) :
    ((getN s n).group = none →
      (∀ p, (getN s n).parent = some p →
          getPreviousS (f + 1) s n (some r) = getPreviousS f s p (some r)
          ∧ getNextS (f + 1) s n (some r) = getNextS f s p (some r))
      ∧ ((getN s n).parent = none →
          (getPreviousS (f + 1) s n (some r)).1 = none
          ∧ (getNextS (f + 1) s n (some r)).1 = none))
    ∧ (∀ g, (getN s n).group = some g → r ∉ g →
        (getPreviousS (f + 1) s n (some r)).1 = some n
        ∧ (getNextS (f + 1) s n (some r)).1 = some n) := by
  constructor
  · intro hg
    constructor
    · intro p hp
      constructor <;> simp [getPreviousS, getNextS, hg, hp]
    · intro hp
      constructor <;> simp [getPreviousS, getNextS, hg, hp]
  · intro g hg hr
    constructor
    · simp [getPreviousS, hg, scanPrev_of_not_mem g r hr]
    · simp [getNextS, hg, scanNext_of_not_mem g r hr]

/-- Witness for the amended C5 on the concrete arena: node 3 (no Group
    attribute) delegates to its parent 0, node 2 (Group without the
    reference) returns itself. -/
theorem c5_delegation_w :
    getPreviousS 2 navState 3 (some 9) = getPreviousS 1 navState 0 (some 9)
    ∧ (getPreviousS 2 navState 2 (some 9)).1 = some 2 := by
  constructor
  · exact (((c5_delegation 1 navState 3 9).1 (by decide)).1 0 (by decide)).1
  · exact ((c5_delegation 1 navState 2 9).2 [7] (by decide) (by decide)).1

theorem getPreviousS_state : ∀ (f : Nat) (s : State) (n : Nat) (r : Option Nat),
    (getPreviousS f s n r).2 = s := by
  intro f
  induction f with
  | zero => intro s n r; rfl
  | succ f ih =>
    intro s n r
    cases r with
    | none =>
      cases h : (getN s n).parent with
      | none => simp [getPreviousS, h]
      | some p => simp [getPreviousS, h, ih]
    | some rr =>
      cases hg : (getN s n).group with
      | none =>
        cases h : (getN s n).parent with
        | none => simp [getPreviousS, hg, h]
        | some p => simp [getPreviousS, hg, h, ih]
      | some g =>
        cases hs : scanPrev g rr <;> simp [getPreviousS, hg, hs]

theorem getNextS_state : ∀ (f : Nat) (s : State) (n : Nat) (r : Option Nat),
    (getNextS f s n r).2 = s := by
  intro f
  induction f with
  | zero => intro s n r; rfl
  | succ f ih =>
    intro s n r
    cases r with
    | none =>
      cases h : (getN s n).parent with
      | none => simp [getNextS, h]
      | some p => simp [getNextS, h, ih]
    | some rr =>
      cases hg : (getN s n).group with
      | none =>
        cases h : (getN s n).parent with
        | none => simp [getNextS, hg, h]
        | some p => simp [getNextS, hg, h, ih]
      | some g =>
        cases hs : scanNext g rr <;> simp [getNextS, hg, hs]

/-- C10: getPrevious and getNext are read-only: the state coming out of a
    call is the very state that went in, for every arena, node and optional
    reference, hence every node's children sequence, parent pointer,
    placement, type tag, version and scratch mapping are untouched. -/
theorem c10_navigation_readonly (f : Nat) (s : State) (n : Nat) (r : Option Nat) :
    (getPreviousS f s n r).2 = s ∧ (getNextS f s n r).2 = s :=
  ⟨getPreviousS_state f s n r, getNextS_state f s n r⟩

/- ===== Placement propagation: setAxialPosition (138-148) ===== -/

/-- One invocation of the per-variant positionChild hook, recorded as data:
    the child it is called on, the parent document object, the parent base,
    the parent axial length and the parent fore radius, in the order the
    source passes them. -/
structure PosCall where
  child : Nat
  par : Nat
  base : Int
  len : Int
  radius : Int
deriving DecidableEq, Repr

/-- Method positionChildren: when the document object has a Group attribute,
    call positionChild on every child with (child, self._obj, partBase,
    self.getAxialLength(), self.getForeRadius()); the base-class hook itself
    is a no-op, so the call trace is the observable outcome. -/
def positionChildren (e : Env) (s : State) (n : Nat) (base : Int) : List PosCall :=
  match (getN s n).group with
  | some g =>
    g.map fun c =>
      ⟨c, n, base, e.axialLength (getN s n).ty, e.foreRadius (getN s n).ty⟩
  | none => []

/-- Method setAxialPosition: rebuild the Placement from the new axial
    coordinate, the old transverse coordinates base.y and base.z, and the
    rotation literal Rotation(0,0,0); then run positionChildren on the
    updated state. -/
def setAxialPosition (e : Env) (s : State) (n : Nat) (x : Int) :
    State × List PosCall :=
  let s1 := s.set n { getN s n with px := x, rot := (0, 0, 0) }
  (s1, positionChildren e s1 n x)

/- ===== Arena read/write lemmas ===== -/

theorem getN_set_self : ∀ (s : State) (i : Nat) (nd : Node), i < s.length →
    getN (s.set i nd) i = nd := by
  intro s
  induction s with
  | nil => intro i nd h; exact absurd h (by simp)
  | cons a l ih =>
    intro i nd h
    cases i with
    | zero => rfl
    | succ j => exact ih j nd (Nat.lt_of_succ_lt_succ h)

theorem getN_set_ne : ∀ (s : State) (i j : Nat) (nd : Node), i ≠ j →
    getN (s.set i nd) j = getN s j := by
  intro s
  induction s with
  | nil => intro i j nd _; rfl
  | cons a l ih =>
    intro i j nd h
    cases i with
    | zero =>
      cases j with
      | zero => exact absurd rfl h
      | succ m => rfl
    | succ k =>
      cases j with
      | zero => rfl
      | succ m => exact ih k m nd (fun e => h (by rw [e]))

/- ===== Theorems for C7 ===== -/

/-- Single-node arena whose placement carries a non-trivial rotation. -/
def rotState : State :=
  [⟨"T", "3.0", none, none, 1, 2, 3, (4, 5, 6), []⟩]

/-- An environment instance with the base-class defaults (no eligible child,
    zero extents). -/
def baseEnv : Env := ⟨fun _ _ => false, fun _ => 0, fun _ => 0⟩

/-- C7 counterexample: setAxialPosition rebuilds the Placement with the
    rotation literal Rotation(0,0,0), so a pre-existing rotation (4,5,6) is
    not preserved, contradicting that every non-axial placement component is
    left unchanged. -/
theorem c7_counterexample :
    (getN (setAxialPosition baseEnv rotState 0 9).1 0).rot ≠ (getN rotState 0).rot
    ∧ (getN (setAxialPosition baseEnv rotState 0 9).1 0).py = (getN rotState 0).py
    ∧ (getN (setAxialPosition baseEnv rotState 0 9).1 0).pz = (getN rotState 0).pz := by
  decide

/-- C7 amended: setAxialPosition sets the axial coordinate to x, keeps the
    transverse coordinates y and z and every non-placement field of the
    node, resets the rotation to (0,0,0), touches no other node, and then
    invokes positionChild once per child with (child, this node, x, this
    node's axial length, this node's fore radius). -/
theorem c7_axial_position (e : Env) (s : State) (n : Nat) (x : Int)
    (h : n < s.length) :
    getN (setAxialPosition e s n x).1 n
      = { getN s n with px := x, rot := (0, 0, 0) }
    ∧ (∀ m, m ≠ n → getN (setAxialPosition e s n x).1 m = getN s m)
    ∧ (setAxialPosition e s n x).2
      = ((getN s n).group.getD []).map
          (fun c => ⟨c, n, x, e.axialLength (getN s n).ty,
            e.foreRadius (getN s n).ty⟩) := by
  refine ⟨getN_set_self s n _ h, fun m hm => getN_set_ne s n m _ (fun e2 => hm e2.symm), ?_⟩
  show positionChildren e (s.set n { getN s n with px := x, rot := (0, 0, 0) }) n x = _
  have hg := getN_set_self s n { getN s n with px := x, rot := (0, 0, 0) } h
  unfold positionChildren
  rw [hg]
  cases hgr : (getN s n).group with
  | none => simp [hgr]
  | some g => simp [hgr]

/-- Witness for the amended C7 on the concrete one-node arena. -/
theorem c7_axial_position_w :
    getN (setAxialPosition baseEnv rotState 0 9).1 0
      = { getN rotState 0 with px := 9, rot := (0, 0, 0) }
    ∧ (setAxialPosition baseEnv rotState 0 9).2 = [] := by
  refine ⟨(c7_axial_position baseEnv rotState 0 9 (by decide)).1, ?_⟩
  have h := (c7_axial_position baseEnv rotState 0 9 (by decide)).2.2
  simpa using h

/- ===== Tree reordering: moveUp (162-169), _moveChildUp (171-226),
         moveDown (228-235), _moveChildDown (237-267) ===== -/

/-- Overwrite the Group sequence of node i (the Python code mutates the list
    in place or reassigns the attribute; both land here). -/
def setGroup (s : State) (i : Nat) (g : List Nat) : State :=
  s.set i { getN s i with group := some g }

/-- Method setParent: store the new parent back-reference on node i. -/
def setParentPtr (s : State) (i : Nat) (p : Option Nat) : State :=
  s.set i { getN s i with parent := p }

/-- Modelled from the spec: the host document addObject operation appends a
    child to the Group sequence (creating the sequence when absent); the
    operation itself lives in the host CAD application, not in the source
    file. -/
def addObject (s : State) (par c : Nat) : State :=
  setGroup s par (((getN s par).group.getD []) ++ [c])

/-- The while loop walking the parent chain for the first node whose
    eligibleChild accepts the moved object's type (lines 215-221 and
    256-262).  The walk itself performs no mutation; the fuel bounds the
    chain length, which the source leaves unbounded. -/
def findEligAncestor (e : Env) (s : State) : Nat → Option Nat → String → Option Nat
  | 0, _, _ => none
  | _ + 1, none, _ => none
  | f + 1, some a, ty =>
    if e.elig (getN s a).ty ty then some a
    else findEligAncestor e s f (getN s a).parent ty

/-- The scan of the grandparent's Group for the position of this node
    (lines 200-210): index of the first occurrence. -/
def gpScan : List Nat → Nat → Nat → Option Nat
  | [], _, _ => none
  | x :: xs, p, k => if x = p then some k else gpScan xs p (k + 1)

/-- Python list.insert: insert before the given position, clamping to the
    end when the position is past it. -/
def listInsert : Nat → Nat → List Nat → List Nat
  | 0, x, l => x :: l
  | _ + 1, x, [] => [x]
  | n + 1, x, y :: l => y :: listInsert n x l

/-- The body of the for loop of _moveChildUp (lines 174-222), invoked on
    parent p with moved child c.  The cursor k tracks both the Python loop
    variable index and the iterator position over the list object, which
    stay equal because the only mutate-and-continue branch (the merge at
    lines 179-185, which has no return) pops exactly one element at the
    cursor.  Each iteration re-reads the current Group, matching iteration
    over the shared mutated list.  The Boolean records whether a return
    statement fired; gas starts at the Group length plus one, which
    dominates the iteration count since the sequence never grows while the
    loop runs.  When the grandparent has no Group attribute the scan reads
    an empty sequence. -/
def upLoop (e : Env) (p c : Nat) : Nat → Nat → Nat → State → State × Bool
  | 0, _, _, s => (s, false)
  | gas + 1, wf, k, s =>
    if k < ((getN s p).group.getD []).length then
      if ((getN s p).group.getD []).getD k 0 = c then
        if 0 < k then
          if e.elig (getN s (((getN s p).group.getD []).getD (k - 1) 0)).ty
              (getN s c).ty then
            -- merge into the preceding sibling; no return, the loop goes on
            upLoop e p c gas wf (k + 1)
              (addObject
                (setParentPtr
                  (setGroup s p (((getN s p).group.getD []).eraseIdx k)) c
                  (some ((((getN s p).group.getD []).eraseIdx k).getD (k - 1) 0)))
                ((((getN s p).group.getD []).eraseIdx k).getD (k - 1) 0) c)
          else
            -- swap with the preceding sibling, return
            (setGroup s p
              ((((getN s p).group.getD []).set (k - 1) c).set k
                (((getN s p).group.getD []).getD (k - 1) 0)), true)
        else
          -- index 0: try the grandparent insert, else walk the ancestors
          match
            (match (getN s p).parent with
             | some gp =>
               if e.elig (getN s gp).ty (getN s c).ty then
                 (gpScan ((getN s gp).group.getD []) p 0).map fun j => (gp, j)
               else none
             | none => none) with
          | some (gp, j) =>
            (setGroup
              (setGroup s p (((getN s p).group.getD []).eraseIdx 0)) gp
              (listInsert j c
                ((getN (setGroup s p (((getN s p).group.getD []).eraseIdx 0)) gp).group.getD [])),
              true)
          | none =>
            match findEligAncestor e s wf (getN s p).parent (getN s c).ty with
            | some anc =>
              (addObject
                (setParentPtr
                  (setGroup s p (((getN s p).group.getD []).eraseIdx 0)) c
                  (some anc)) anc c, true)
            | none => upLoop e p c gas wf (k + 1) s
      else upLoop e p c gas wf (k + 1) s
    else (s, false)

/-- Method _moveChildUp on parent p with moved child c.  When the loop falls
    through without a return (or there is no Group attribute), the call is
    forwarded to this node's own parent with this node as the argument
    (lines 224-226).  The fuel bounds that upward recursion. -/
def moveChildUp (e : Env) : Nat → State → Nat → Nat → State
  | 0, s, _, _ => s
  | fuel + 1, s, p, c =>
    match (getN s p).group with
    | some g =>
      match upLoop e p c (g.length + 1) (fuel + 1) 0 s with
      | (s1, true) => s1
      | (s1, false) =>
        match (getN s1 p).parent with
        | some pp => moveChildUp e fuel s1 pp p
        | none => s1
    | none =>
      match (getN s p).parent with
      | some pp => moveChildUp e fuel s pp p
      | none => s

/-- The body of the for loop of _moveChildDown (lines 240-263) on parent p
    with moved child c; last is len(Group) - 1 computed before the loop.
    Both returning branches fire immediately, so the sequence iterated over
    never changes while the loop runs.  Note the hoist branch pops index 0
    of the Group (line 258), not the index of c. -/
def downLoop (e : Env) (p c last : Nat) : Nat → Nat → Nat → State → State × Bool
  | 0, _, _, s => (s, false)
  | gas + 1, wf, k, s =>
    if k < ((getN s p).group.getD []).length then
      if ((getN s p).group.getD []).getD k 0 = c then
        if k < last then
          -- swap with the following sibling, return
          (setGroup s p
            ((((getN s p).group.getD []).set (k + 1) c).set k
              (((getN s p).group.getD []).getD (k + 1) 0)), true)
        else
          match findEligAncestor e s wf (getN s p).parent (getN s c).ty with
          | some anc =>
            (addObject
              (setParentPtr
                (setGroup s p (((getN s p).group.getD []).eraseIdx 0)) c
                (some anc)) anc c, true)
          | none => downLoop e p c last gas wf (k + 1) s
      else downLoop e p c last gas wf (k + 1) s
    else (s, false)

/-- Method _moveChildDown on parent p with moved child c.  When the loop
    falls through without a return, the code invokes the up-moving operation
    on this node's own parent (lines 265-267). -/
def moveChildDown (e : Env) : Nat → State → Nat → Nat → State
  | 0, s, _, _ => s
  | fuel + 1, s, p, c =>
    match (getN s p).group with
    | some g =>
      match downLoop e p c (g.length - 1) (g.length + 1) (fuel + 1) 0 s with
      | (s1, true) => s1
      | (s1, false) =>
        match (getN s1 p).parent with
        | some pp => moveChildUp e fuel s1 pp p
        | none => s1
    | none =>
      match (getN s p).parent with
      | some pp => moveChildUp e fuel s pp p
      | none => s

/-- Method moveUp: delegate to the parent's _moveChildUp with self as the
    argument; no-op for a root. -/
def moveUp (e : Env) (fuel : Nat) (s : State) (n : Nat) : State :=
  match (getN s n).parent with
  | some p => moveChildUp e fuel s p n
  | none => s

/-- Method moveDown: delegate to the parent's _moveChildDown with self as
    the argument; no-op for a root. -/
def moveDown (e : Env) (fuel : Nat) (s : State) (n : Nat) : State :=
  match (getN s n).parent with
  | some p => moveChildDown e fuel s p n
  | none => s

/- ===== Concrete arenas for the reordering claims ===== -/

/-- Environment in which only a node of Type G accepts a child of Type N. -/
def envD : Env := ⟨fun pt ct => pt == "G" && ct == "N", fun _ => 0, fun _ => 0⟩

/-- Down-move arena: grandparent G (id 0, children [P]), parent P (id 1,
    children [F, N]), leaf F (id 2) and last child N (id 3), whose type only
    G accepts. -/
def dstate : State :=
  [⟨"G", "3.0", none, some [1], 0, 0, 0, (0, 0, 0), []⟩,
   ⟨"P", "3.0", some 0, some [2, 3], 0, 0, 0, (0, 0, 0), []⟩,
   ⟨"F", "3.0", some 1, none, 0, 0, 0, (0, 0, 0), []⟩,
   ⟨"N", "3.0", some 1, none, 0, 0, 0, (0, 0, 0), []⟩]

/-- C1 violation: moveDown on the last child N (id 3) of P hits the hoist
    branch, whose pop removes index 0 of P's sequence (the sibling F, id 2)
    instead of N; afterwards N sits in the children sequences of both G and
    P, and F sits in none while still pointing at parent P.  So a step
    removed a node from a sequence without inserting it anywhere, and the
    moved node appears in two parents' sequences. -/
theorem c1_orphan_violation :
    (getN (moveDown envD 5 dstate 3) 1).group = some [3]
    ∧ (getN (moveDown envD 5 dstate 3) 0).group = some [1, 3]
    ∧ (3 ∈ ((getN (moveDown envD 5 dstate 3) 0).group.getD [])
        ∧ 3 ∈ ((getN (moveDown envD 5 dstate 3) 1).group.getD [])
        ∧ (0 : Nat) ≠ 1)
    ∧ (2 ∉ ((getN (moveDown envD 5 dstate 3) 0).group.getD [])
        ∧ 2 ∉ ((getN (moveDown envD 5 dstate 3) 1).group.getD [])
        ∧ (getN (moveDown envD 5 dstate 3) 2).group = none
        ∧ (getN (moveDown envD 5 dstate 3) 3).group = none
        ∧ (getN (moveDown envD 5 dstate 3) 2).parent = some 1) := by
  decide

/-- C4 failing input, run on _moveChildDown directly: with P's children
    [F, N] and N last, the accepting ancestor G is found, but the code pops
    index 0 (removing F), so N is not removed from P's children even though
    it is re-parented to G and appended to G's children. -/
theorem c4_pop_zero_bug :
    (getN (moveChildDown envD 5 dstate 1 3) 1).group = some [3]
    ∧ (getN (moveChildDown envD 5 dstate 1 3) 0).group = some [1, 3]
    ∧ (getN (moveChildDown envD 5 dstate 1 3) 3).parent = some 0 := by
  decide

/-- Environment in which only a node of Type B accepts a child of Type N. -/
def envU : Env := ⟨fun pt ct => pt == "B" && ct == "N", fun _ => 0, fun _ => 0⟩

/-- Up-move arena: grandparent GP (id 0, children [S, P]), sibling S (id 1),
    parent P (id 2, children [B, N]), group node B (id 3, empty children,
    accepts N's type) and child N (id 4). -/
def ustate : State :=
  [⟨"GP", "3.0", none, some [1, 2], 0, 0, 0, (0, 0, 0), []⟩,
   ⟨"S", "3.0", some 0, none, 0, 0, 0, (0, 0, 0), []⟩,
   ⟨"P", "3.0", some 0, some [3, 4], 0, 0, 0, (0, 0, 0), []⟩,
   ⟨"B", "3.0", some 2, some [], 0, 0, 0, (0, 0, 0), []⟩,
   ⟨"N", "3.0", some 2, none, 0, 0, 0, (0, 0, 0), []⟩]

/-- C3 failing input: _moveChildUp on P with child N performs the merge as
    claimed (N leaves P's children, is re-parented onto the preceding
    sibling B and appended to B's children), but the merge branch has no
    return, so the call falls through and also asks GP to move P up,
    swapping P with S in GP's children — a modification of another part of
    the tree. -/
theorem c3_missing_return :
    (getN (moveChildUp envU 5 ustate 2 4) 2).group = some [3]
    ∧ (getN (moveChildUp envU 5 ustate 2 4) 4).parent = some 3
    ∧ (getN (moveChildUp envU 5 ustate 2 4) 3).group = some [4]
    ∧ (getN (moveChildUp envU 5 ustate 2 4) 0).group = some [2, 1]
    ∧ (getN (moveChildUp envU 5 ustate 2 4) 0).group ≠ (getN ustate 0).group := by
  decide

/-- Environment in which only a node of Type G accepts a child of Type C. -/
def envG : Env := ⟨fun pt ct => pt == "G" && ct == "C", fun _ => 0, fun _ => 0⟩

/-- Grandparent-insert arena: G (id 0, children [A]), A (id 1, children [C])
    and C (id 2), whose type only G accepts. -/
def gstate : State :=
  [⟨"G", "3.0", none, some [1], 0, 0, 0, (0, 0, 0), []⟩,
   ⟨"A", "3.0", some 0, some [2], 0, 0, 0, (0, 0, 0), []⟩,
   ⟨"C", "3.0", some 1, none, 0, 0, 0, (0, 0, 0), []⟩]

/-- C2 counterexample: moveUp on C (id 2), first child of A whose parent G
    accepts C's type, does insert C immediately before A in G's children and
    removes it from A's — but the grandparent-insert branch never calls
    setParent, so C's parent pointer still designates A (id 1), not G
    (id 0), refuting the claim at this input. -/
theorem c2_counterexample :
    (getN (moveUp envG 5 gstate 2) 0).group = some [2, 1]
    ∧ (getN (moveUp envG 5 gstate 2) 1).group = some []
    ∧ (getN (moveUp envG 5 gstate 2) 2).parent = some 1
    ∧ (some 1 : Option Nat) ≠ some 0 := by
  decide

/- ===== Lemmas for the grandparent-insert branch ===== -/

theorem gpScan_first : ∀ (l₁ l₂ : List Nat) (p k : Nat), p ∉ l₁ →
    gpScan (l₁ ++ p :: l₂) p k = some (k + l₁.length) := by
  intro l₁
  induction l₁ with
  | nil => intro l₂ p k _; simp [gpScan]
  | cons x xs ih =>
    intro l₂ p k h
    have hx : x ≠ p := fun e => h (by simp [e])
    have hxs : p ∉ xs := fun hm => h (List.mem_cons_of_mem _ hm)
    rw [List.cons_append]
    show (if x = p then some k else gpScan (xs ++ p :: l₂) p (k + 1))
      = some (k + (x :: xs).length)
    rw [if_neg hx, ih l₂ p (k + 1) hxs, List.length_cons, Option.some.injEq]
    omega

theorem listInsert_at : ∀ (l₁ l₂ : List Nat) (c : Nat),
    listInsert l₁.length c (l₁ ++ l₂) = l₁ ++ c :: l₂ := by
  intro l₁
  induction l₁ with
  | nil => intro l₂ c; rfl
  | cons x xs ih => intro l₂ c; simp [listInsert, ih l₂ c]

theorem length_setGroup (s : State) (i : Nat) (g : List Nat) :
    (setGroup s i g).length = s.length := by
  simp [setGroup]

theorem getN_setGroup_self (s : State) (i : Nat) (g : List Nat)
    (h : i < s.length) :
    getN (setGroup s i g) i = { getN s i with group := some g } :=
  getN_set_self s i _ h

theorem getN_setGroup_ne (s : State) (i j : Nat) (g : List Nat) (h : i ≠ j) :
    getN (setGroup s i g) j = getN s j :=
  getN_set_ne s i j _ h

/-- C2 amended: for a child c at index 0 of parent a whose own parent gId
    accepts c's type and lists a among its children (first occurrence after
    l₁), _moveChildUp removes c from a's children, inserts it into gId's
    children immediately before a, leaves c's node — in particular its
    parent pointer — untouched, and changes no node other than a and gId. -/
theorem c2_grandparent_insert (e : Env) (f : Nat) (s : State)
    (a gId c : Nat) (rest l₁ l₂ : List Nat)
    (ha : a < s.length) (hg : gId < s.length)
    (hag : a ≠ gId) (hca : c ≠ a) (hcg : c ≠ gId)
    (hpgroup : (getN s a).group = some (c :: rest))
    (hpparent : (getN s a).parent = some gId)
    (hggroup : (getN s gId).group = some (l₁ ++ a :: l₂))
    (hnl : a ∉ l₁)
    (helig : e.elig (getN s gId).ty (getN s c).ty = true) :
    getN (moveChildUp e (f + 1) s a c) a = { getN s a with group := some rest }
    ∧ getN (moveChildUp e (f + 1) s a c) gId
        = { getN s gId with group := some (l₁ ++ c :: a :: l₂) }
    ∧ (getN (moveChildUp e (f + 1) s a c) c).parent = (getN s c).parent
    ∧ ∀ m, m ≠ a → m ≠ gId → getN (moveChildUp e (f + 1) s a c) m = getN s m := by
  have hga : getN (setGroup s a rest) gId = getN s gId :=
    getN_setGroup_ne s a gId rest hag
  have hscan : gpScan (l₁ ++ a :: l₂) a 0 = some l₁.length := by
    simpa using gpScan_first l₁ l₂ a 0 hnl
  have hup : upLoop e a c (rest.length + 1 + 1) (f + 1) 0 s
      = (setGroup (setGroup s a rest) gId (l₁ ++ c :: a :: l₂), true) := by
    simp only [upLoop, hpgroup, Option.getD_some, List.length_cons,
      Nat.zero_lt_succ, if_true, List.getD_cons_zero, if_pos rfl,
      Nat.lt_irrefl, if_false, hpparent, helig, hscan, Option.map_some',
      List.eraseIdx_cons_zero, hga, hggroup, listInsert_at l₁ (a :: l₂) c]
  have hmain : moveChildUp e (f + 1) s a c
      = setGroup (setGroup s a rest) gId (l₁ ++ c :: a :: l₂) := by
    simp only [moveChildUp, hpgroup, List.length_cons, hup]
  have hgl : gId < (setGroup s a rest).length := by
    rw [length_setGroup]; exact hg
  refine ⟨?_, ?_, ?_, ?_⟩
  · rw [hmain, getN_setGroup_ne _ gId a _ (fun e2 => hag e2.symm),
      getN_setGroup_self s a rest ha]
  · rw [hmain, getN_setGroup_self _ gId _ hgl, hga]
  · rw [hmain, getN_setGroup_ne _ gId c _ (fun e2 => hcg e2.symm),
      getN_setGroup_ne s a c rest (fun e2 => hca e2.symm)]
  · intro m hma hmg
    rw [hmain, getN_setGroup_ne _ gId m _ (fun e2 => hmg e2.symm),
      getN_setGroup_ne s a m rest (fun e2 => hma e2.symm)]

/-- Witness for the amended C2 on the concrete grandparent-insert arena. -/
theorem c2_grandparent_insert_w :
    getN (moveChildUp envG 1 gstate 1 2) 0
      = { getN gstate 0 with group := some ([] ++ 2 :: 1 :: []) }
    ∧ (getN (moveChildUp envG 1 gstate 1 2) 2).parent = (getN gstate 2).parent :=
  ⟨(c2_grandparent_insert envG 0 gstate 1 0 2 [] [] [] (by decide) (by decide)
      (by decide) (by decide) (by decide) (by decide) (by decide) (by decide)
      (by decide) (by decide)).2.1,
   (c2_grandparent_insert envG 0 gstate 1 0 2 [] [] [] (by decide) (by decide)
      (by decide) (by decide) (by decide) (by decide) (by decide) (by decide)
      (by decide) (by decide)).2.2.1⟩

end ShapeBase
